import Mathlib

/-!
Verification of the finab coordination core: the circuit breaker
(`email_scraper/utils/circuit_breaker.py`), the atomic work-queue protocol
(`email_scraper/db_management/db_operations.py`), the batch worker pool
(`email_scraper/main.py`), and termination propagation
(`flask_app.py`, `routes/workflow_routes.py`, `tasks/workflow_tasks.py`).

Mutable Python state is embedded as explicit state passing: every operation
takes the state it reads and returns the state it leaves behind.  Wall-clock
time (`time.time()`, `datetime.now`) is an explicit `Int` parameter.
-/

/-! ## Circuit breaker (email_scraper/utils/circuit_breaker.py)

The Python class holds three dictionaries keyed by domain; they are embedded
as functions `String → Option _` (a `Set` as `String → Bool`).  The falsy
check `if not domain` is embedded as the test against the empty string, the
falsy string value. -/

structure CircuitBreaker where
  failure_counts : String → Option Nat
  circuit_open : String → Bool
  last_failure_time : String → Option Int
  failure_threshold : Nat
  reset_timeout : Int

def CircuitBreaker.init (threshold : Nat) (timeout : Int) : CircuitBreaker :=
  { failure_counts := fun _ => none
    circuit_open := fun _ => false
    last_failure_time := fun _ => none
    failure_threshold := threshold
    reset_timeout := timeout }

def CircuitBreaker.record_failure (b : CircuitBreaker) (domain : String) (now : Int) :
    CircuitBreaker :=
  if domain = "" then b
  else
    let newCount := (b.failure_counts domain).getD 0 + 1
    let counts := fun d => if d = domain then some newCount else b.failure_counts d
    let last := fun d => if d = domain then some now else b.last_failure_time d
    let opened :=
      if b.failure_threshold ≤ newCount ∧ b.circuit_open domain = false then
        fun d => if d = domain then true else b.circuit_open d
      else b.circuit_open
    { b with failure_counts := counts, last_failure_time := last, circuit_open := opened }

def CircuitBreaker.is_open (b : CircuitBreaker) (domain : String) (now : Int) :
    Bool × CircuitBreaker :=
  if domain = "" ∨ b.circuit_open domain = false then (false, b)
  else if b.reset_timeout < now - (b.last_failure_time domain).getD 0 then
    (false,
      { b with
        circuit_open := fun d => if d = domain then false else b.circuit_open d
        failure_counts := fun d => if d = domain then none else b.failure_counts d
        last_failure_time := fun d => if d = domain then none else b.last_failure_time d })
  else (true, b)

def CircuitBreaker.record_success (b : CircuitBreaker) (domain : String) : CircuitBreaker :=
  if domain = "" then b
  else
    let b1 :=
      match b.failure_counts domain with
      | some _ =>
        { b with
          failure_counts := fun d => if d = domain then none else b.failure_counts d
          last_failure_time := fun d => if d = domain then none else b.last_failure_time d }
      | none => b
    if b1.circuit_open domain then
      { b1 with circuit_open := fun d => if d = domain then false else b1.circuit_open d }
    else b1

/-- Folding a list of `record_failure` calls for one domain, timestamp by timestamp. -/
def applyFailures (b : CircuitBreaker) (domain : String) (ts : List Int) : CircuitBreaker :=
  ts.foldl (fun st t => st.record_failure domain t) b

/-! ## Work-queue store (email_scraper/db_management/db_operations.py)

A MongoDB collection is embedded as a list of documents.  Optional document
fields are `Option` values; `_id` is the `id` field (unique in MongoDB, which
is carried as a `Nodup` hypothesis where it matters).  Timestamps are `Int`.
Projections (`{"_id": 1, "website": 1, ...}`) are dropped: the full document
stands for the projected view. -/

structure BizRecord where
  id : Nat
  businessname : Option String
  website : Option String
  emailstatus : String
  processing_started_at : Option Int
  email : List String
  emailscraped_at : Option Int
  error_message : Option String
  recovery_note : Option String
deriving DecidableEq

/-- The website filter `{"$exists": True, "$nin": ["", None, "N/A"]}`:
the field must be present and be neither empty, null, nor "N/A". -/
def websiteOk : Option String → Bool
  | none => false
  | some w => !(w == "" || w == "N/A")

/-- The claim query `{"website": {...}, "emailstatus": "pending"}`. -/
def pendingQuery (r : BizRecord) : Bool :=
  websiteOk r.website && r.emailstatus == "pending"

/-- `mark_record_as_processing`: `find_one_and_update` filtered on
`{"_id": record_id, "emailstatus": "pending"}`, setting `emailstatus` to
`processing` and stamping `processing_started_at`.  Returns whether a document
matched (the conditional update succeeded) together with the new collection
state; on failure the collection is untouched. -/
def mark_record_as_processing (s : List BizRecord) (record_id : Nat) (now : Int) :
    Bool × List BizRecord :=
  match s with
  | [] => (false, [])
  | r :: rest =>
    if r.id == record_id && r.emailstatus == "pending" then
      (true, { r with emailstatus := "processing", processing_started_at := some now } :: rest)
    else
      let out := mark_record_as_processing rest record_id now
      (out.1, r :: out.2)

/-- The claim loop of `get_pending_records_atomic`: for each candidate, attempt
the conditional transition; keep the candidate only if it succeeded. -/
def claimPending (s : List BizRecord) (cands : List BizRecord) (now : Int) :
    List BizRecord × List BizRecord :=
  match cands with
  | [] => ([], s)
  | c :: rest =>
    let m := mark_record_as_processing s c.id now
    let out := claimPending m.2 rest now
    (if m.1 then c :: out.1 else out.1, out.2)

/-- `get_pending_records_atomic`: fetch up to `actual_batch_size` pending
records with valid websites, then conditionally claim each one. -/
def get_pending_records_atomic (s : List BizRecord) (limit batch_size : Nat) (now : Int) :
    List BizRecord × List BizRecord :=
  let actual_batch_size := if 0 < limit then min batch_size limit else batch_size
  let pending_records := (s.filter pendingQuery).take actual_batch_size
  claimPending s pending_records now

/-- First document with the given `_id`. -/
def findById (s : List BizRecord) (i : Nat) : Option BizRecord :=
  s.find? (fun r => r.id == i)

def claimedDoc (r : BizRecord) (now : Int) : BizRecord :=
  { r with emailstatus := "processing", processing_started_at := some now }

/-- The recovery annotation appended by `recover_stale_processing_records`. -/
def recoveryNote (max_processing_time : Int) : String :=
  s!"Reset from stale processing state after {max_processing_time} seconds"

/-- The stale filter `{"emailstatus": "processing", "processing_started_at": {"$lt": cutoff}}`;
a document without the timestamp field does not match `$lt`. -/
def staleQuery (cutoff : Int) (r : BizRecord) : Bool :=
  r.emailstatus == "processing" &&
    (match r.processing_started_at with
     | some t => t < cutoff
     | none => false)

def recoveredDoc (max_processing_time : Int) (r : BizRecord) : BizRecord :=
  { r with emailstatus := "pending",
           recovery_note := some (recoveryNote max_processing_time),
           processing_started_at := none }

/-- `recover_stale_processing_records`: one `update_many` over the stale filter
with cutoff `now - max_processing_time`, setting the status back to `pending`,
appending the recovery note, unsetting `processing_started_at`, and returning
`modified_count` (every matched document is modified, its status changes). -/
def recover_stale_processing_records (s : List BizRecord) (now max_processing_time : Int) :
    Nat × List BizRecord :=
  let cutoff := now - max_processing_time
  (s.countP (staleQuery cutoff),
   s.map (fun r => if staleQuery cutoff r then recoveredDoc max_processing_time r else r))

/-- `update_record_with_email_results`: `update_one({"_id": record_id})`
setting `emailstatus`, `email` to `emails[:15]`, stamping `emailscraped_at`;
`error_message` is set when truthy (non-empty) and unset otherwise.  Returns
whether a document matched. -/
def update_record_with_email_results (s : List BizRecord) (record_id : Nat)
    (status : String) (emails : List String) (error_message : Option String) (now : Int) :
    Bool × List BizRecord :=
  match s with
  | [] => (false, [])
  | r :: rest =>
    if r.id == record_id then
      (true,
       { r with
         emailstatus := status,
         email := emails.take 15,
         emailscraped_at := some now,
         error_message :=
           match error_message with
           | some m => if m == "" then none else some m
           | none => none } :: rest)
    else
      let out := update_record_with_email_results rest record_id status emails error_message now
      (out.1, r :: out.2)

def emailResultDoc (status : String) (emails : List String) (error_message : Option String)
    (now : Int) (r : BizRecord) : BizRecord :=
  { r with
    emailstatus := status,
    email := emails.take 15,
    emailscraped_at := some now,
    error_message :=
      match error_message with
      | some m => if m == "" then none else some m
      | none => none }

/-! ## Batch worker pool (email_scraper/main.py)

`process_batch` submits one task per record (checking the shutdown flag before
each submission) and then folds every completed future into the running
`run_stats` dictionary.  The evolving global shutdown flag is embedded as a
function from checkpoint index to `Bool`; a completed future is
`Except.error e` when `future.result()` raised, and `Except.ok (record_id,
status, num_emails)` otherwise.  Python's `str.startswith` is embedded as a
character-list test. -/

structure RunStats where
  processed : Nat
  found : Nat
  checked_no_email : Nat
  failed : Nat
  skipped : Nat
  emails_collected : Nat
deriving DecidableEq

/-- Python `s.startswith(p)`. -/
def strStartsWith (s p : String) : Bool :=
  p.toList.isPrefixOf s.toList

/-- One iteration of the `as_completed` result loop of `process_batch`:
`processed` is incremented first; an exception from the future is caught and
counted as `failed`; otherwise the outcome status picks exactly one branch. -/
def foldOutcome (run_stats : RunStats) (o : Except String (Nat × String × Nat)) : RunStats :=
  let st := { run_stats with processed := run_stats.processed + 1 }
  match o with
  | Except.error _ => { st with failed := st.failed + 1 }
  | Except.ok (_, res_status, num_e) =>
    if res_status == "found" then
      { st with found := st.found + 1, emails_collected := st.emails_collected + num_e }
    else if res_status == "checked_no_email" then
      { st with checked_no_email := st.checked_no_email + 1 }
    else if strStartsWith res_status "failed" then
      { st with failed := st.failed + 1 }
    else if strStartsWith res_status "skipped" then
      { st with skipped := st.skipped + 1 }
    else st

/-- The whole result loop of `process_batch` over the completed futures. -/
def process_batch_aggregate (run_stats : RunStats)
    (outs : List (Except String (Nat × String × Nat))) : RunStats :=
  outs.foldl foldOutcome run_stats

/-! ## Cooperative termination (email_scraper/main.py, flask_app.py,
tasks/workflow_tasks.py)

The shutdown/termination flag is a mutable boolean read at defined
checkpoints; its evolution over checkpoints is embedded as `flag : Nat → Bool`
(a set flag is never cleared, so the interesting instances are monotone).
`submitLoop` is the submission loop of `process_batch` (flag checked before
each submission, `break` on the first observation).  `mainClaimLoop` is the
batch loop of `main` (`while records_remaining and not shutdown_flag`), with
explicit fuel.  `esFinalStatus` is the terminal-status assignment at the end of
`run_email_scrape_task`.  `chainWaitExitStatus` is the wait loop of
`run_integrated_workflow` over the child task's status, which breaks as soon as
it observes the workflow flag; `workflowFinalStatus` is the status the workflow
thread then records from the child status it read at exit. -/

def submitLoop (flag : Nat → Bool) : List α → Nat → List α
  | [], _ => []
  | r :: rest, i => if flag i then [] else r :: submitLoop flag rest (i + 1)

def mainClaimLoop (flag : Nat → Bool) (batch_size : Nat) (now : Int) :
    Nat → Nat → List BizRecord → List (List BizRecord) × List BizRecord
  | 0, _, s => ([], s)
  | fuel + 1, k, s =>
    if flag k then ([], s)
    else
      let out := get_pending_records_atomic s 0 batch_size now
      if out.1.isEmpty then ([], out.2)
      else
        let rest := mainClaimLoop flag batch_size now fuel (k + 1) out.2
        (out.1 :: rest.1, rest.2)

def esFinalStatus (should_terminate : Bool) : String :=
  if should_terminate then "terminated" else "completed"

def chainWaitExitStatus (esStatus : Nat → String) (wfFlag : Nat → Bool) :
    Nat → Nat → String
  | 0, i => esStatus i
  | fuel + 1, i =>
    if esStatus i == "completed" || esStatus i == "failed" || esStatus i == "terminated" then
      esStatus i
    else if wfFlag i then esStatus i
    else chainWaitExitStatus esStatus wfFlag fuel (i + 1)

def workflowFinalStatus (exitStatus : String) : String :=
  if exitStatus == "failed" || exitStatus == "terminated" then exitStatus else "completed"

/-! ## Termination cascade (flask_app.py terminate_postcode_task,
routes/workflow_routes.py terminate_integrated_workflow)

The in-process task registries (`ps_task_data`, `gm_task_data`,
`es_task_data`, `workflows`) are embedded as partial maps `String → Option _`.
Only the fields the termination endpoints read or write are carried.  The
transient `terminating` status is immediately overwritten by `terminated`
within the same call, so only the net effect is modelled. -/

structure PsTask where
  status : String
  should_terminate : Bool
  stop_scraping : Bool
  gmaps_task_id : Option String
deriving DecidableEq

structure GmTask where
  status : String
  should_terminate : Bool
deriving DecidableEq

structure EsTask where
  status : String
  should_terminate : Bool
deriving DecidableEq

structure StageInfo where
  status : String
  task_id : Option String
deriving DecidableEq

structure Workflow where
  status : String
  should_terminate : Bool
  postcodeStage : StageInfo
  gmapsStage : StageInfo
  emailStage : StageInfo
deriving DecidableEq

def updMap (m : String → Option τ) (k : String) (v : τ) : String → Option τ :=
  fun x => if x = k then some v else m x

/-- `terminate_postcode_task`: 404 when the task id is unknown, early return
when the task is already `completed`/`failed`/`terminated`; otherwise sets the
flags and status on the parent, and when a `gmaps_task_id` is recorded whose
task exists with status `starting` or `running`, also sets that child's
termination flag and status. -/
def terminate_postcode_task (ps_task_data : String → Option PsTask)
    (gm_task_data : String → Option GmTask) (task_id : String) :
    (String → Option PsTask) × (String → Option GmTask) :=
  match ps_task_data task_id with
  | none => (ps_task_data, gm_task_data)
  | some t =>
    if t.status == "completed" || t.status == "failed" || t.status == "terminated" then
      (ps_task_data, gm_task_data)
    else
      let ps2 := updMap ps_task_data task_id
        { t with should_terminate := true, stop_scraping := true, status := "terminated" }
      match t.gmaps_task_id with
      | none => (ps2, gm_task_data)
      | some g =>
        match gm_task_data g with
        | none => (ps2, gm_task_data)
        | some gt =>
          if gt.status == "starting" || gt.status == "running" then
            (ps2,
             updMap gm_task_data g { gt with should_terminate := true, status := "terminated" })
          else (ps2, gm_task_data)

/-- Python truthiness of an optional task-id string. -/
def truthyId : Option String → Bool
  | none => false
  | some s => !(s == "")

/-- `terminate_integrated_workflow`: 404 when the workflow id is unknown, early
return when the workflow is already terminal; otherwise sets the workflow flag
and status and, for each stage recorded as `running` with a truthy task id
present in the matching registry, sets that task's termination flag (and
`stop_scraping` for the postcode stage). -/
def terminate_integrated_workflow (workflows : String → Option Workflow)
    (ps_task_data : String → Option PsTask) (gm_task_data : String → Option GmTask)
    (es_task_data : String → Option EsTask) (workflow_id : String) :
    (String → Option Workflow) × (String → Option PsTask) × (String → Option GmTask) ×
      (String → Option EsTask) :=
  match workflows workflow_id with
  | none => (workflows, ps_task_data, gm_task_data, es_task_data)
  | some w =>
    if w.status == "completed" || w.status == "failed" || w.status == "terminated" then
      (workflows, ps_task_data, gm_task_data, es_task_data)
    else
      let ps2 :=
        if w.postcodeStage.status == "running" && truthyId w.postcodeStage.task_id then
          match w.postcodeStage.task_id with
          | some tid =>
            match ps_task_data tid with
            | some t => updMap ps_task_data tid
                { t with should_terminate := true, stop_scraping := true }
            | none => ps_task_data
          | none => ps_task_data
        else ps_task_data
      let gm2 :=
        if w.gmapsStage.status == "running" && truthyId w.gmapsStage.task_id then
          match w.gmapsStage.task_id with
          | some tid =>
            match gm_task_data tid with
            | some t => updMap gm_task_data tid { t with should_terminate := true }
            | none => gm_task_data
          | none => gm_task_data
        else gm_task_data
      let es2 :=
        if w.emailStage.status == "running" && truthyId w.emailStage.task_id then
          match w.emailStage.task_id with
          | some tid =>
            match es_task_data tid with
            | some t => updMap es_task_data tid { t with should_terminate := true }
            | none => es_task_data
          | none => es_task_data
        else es_task_data
      (updMap workflows workflow_id { w with should_terminate := true, status := "terminated" },
       ps2, gm2, es2)

def psDemo : String → Option PsTask :=
  fun x => if x = "p1" then some ⟨"running", false, false, some "g1"⟩ else none

def gmDemoDone : String → Option GmTask :=
  fun x => if x = "g1" then some ⟨"completed", false⟩ else none

def psDemoDone : String → Option PsTask :=
  fun x => if x = "p2" then some ⟨"completed", false, false, some "g2"⟩ else none

def gmDemoRunning : String → Option GmTask :=
  fun x => if x = "g2" then some ⟨"running", false⟩ else none

def psW : String → Option PsTask :=
  fun x => if x = "p1" then some ⟨"running", false, false, some "g1"⟩ else none

def gmW : String → Option GmTask :=
  fun x => if x = "g1" then some ⟨"running", false⟩ else none

def esW : String → Option EsTask :=
  fun x => if x = "e1" then some ⟨"running", false⟩ else none

def wfsW : String → Option Workflow :=
  fun x =>
    if x = "w1" then
      some ⟨"running", false, ⟨"completed", some "p0"⟩, ⟨"completed", some "g0"⟩,
        ⟨"running", some "e1"⟩⟩
    else none

lemma record_failure_counts (b : CircuitBreaker) (d : String) (t : Int) (hd : d ≠ "") :
    (b.record_failure d t).failure_counts d = some ((b.failure_counts d).getD 0 + 1) := by
  simp only [CircuitBreaker.record_failure, if_neg hd]
  by_cases h : b.failure_threshold ≤ (b.failure_counts d).getD 0 + 1 ∧ b.circuit_open d = false <;>
    simp [h]

lemma record_failure_last (b : CircuitBreaker) (d : String) (t : Int) (hd : d ≠ "") :
    (b.record_failure d t).last_failure_time d = some t := by
  simp only [CircuitBreaker.record_failure, if_neg hd]
  by_cases h : b.failure_threshold ≤ (b.failure_counts d).getD 0 + 1 ∧ b.circuit_open d = false <;>
    simp [h]

lemma record_failure_open (b : CircuitBreaker) (d : String) (t : Int) (hd : d ≠ "") :
    (b.record_failure d t).circuit_open d =
      (b.circuit_open d || decide (b.failure_threshold ≤ (b.failure_counts d).getD 0 + 1)) := by
  simp only [CircuitBreaker.record_failure, if_neg hd]
  by_cases h1 : b.failure_threshold ≤ (b.failure_counts d).getD 0 + 1
  · by_cases ho : b.circuit_open d
    · simp [h1, ho]
    · simp [h1, ho]
  · simp [h1]

lemma record_failure_config (b : CircuitBreaker) (d : String) (t : Int) :
    (b.record_failure d t).failure_threshold = b.failure_threshold ∧
      (b.record_failure d t).reset_timeout = b.reset_timeout := by
  unfold CircuitBreaker.record_failure
  by_cases hd : d = "" <;> simp [hd]

lemma applyFailures_append (b : CircuitBreaker) (d : String) (ts : List Int) (t : Int) :
    applyFailures b d (ts ++ [t]) = (applyFailures b d ts).record_failure d t := by
  simp [applyFailures, List.foldl_append]

lemma applyFailures_counts (d : String) (hd : d ≠ "") :
    ∀ (ts : List Int) (b : CircuitBreaker),
      ((applyFailures b d ts).failure_counts d).getD 0 =
        (b.failure_counts d).getD 0 + ts.length := by
  intro ts
  induction ts with
  | nil => intro b; simp [applyFailures]
  | cons t rest ih =>
    intro b
    have hstep : applyFailures b d (t :: rest) = applyFailures (b.record_failure d t) d rest := by
      simp [applyFailures]
    rw [hstep, ih (b.record_failure d t), record_failure_counts b d t hd]
    simp
    omega

lemma applyFailures_config (d : String) :
    ∀ (ts : List Int) (b : CircuitBreaker),
      (applyFailures b d ts).failure_threshold = b.failure_threshold
      ∧ (applyFailures b d ts).reset_timeout = b.reset_timeout := by
  intro ts
  induction ts with
  | nil => intro b; simp [applyFailures]
  | cons t rest ih =>
    intro b
    have hstep : applyFailures b d (t :: rest) = applyFailures (b.record_failure d t) d rest := by
      simp [applyFailures]
    have hcfg := record_failure_config b d t
    rw [hstep, (ih (b.record_failure d t)).1, (ih (b.record_failure d t)).2, hcfg.1, hcfg.2]
    exact ⟨rfl, rfl⟩

lemma record_success_spec (b : CircuitBreaker) (d : String) (hd : d ≠ "")
    (hinv : b.failure_counts d = none → b.last_failure_time d = none) :
    (b.record_success d).circuit_open d = false
    ∧ (b.record_success d).failure_counts d = none
    ∧ (b.record_success d).last_failure_time d = none := by
  unfold CircuitBreaker.record_success
  simp only [if_neg hd]
  cases hfc : b.failure_counts d with
  | none =>
    have hlf := hinv hfc
    by_cases ho : b.circuit_open d <;> simp [ho, hfc, hlf]
  | some c =>
    by_cases ho : b.circuit_open d <;> simp [ho, hfc]

lemma is_open_false_of_not_open (b : CircuitBreaker) (d : String) (now : Int)
    (h : b.circuit_open d = false) : b.is_open d now = (false, b) := by
  unfold CircuitBreaker.is_open
  simp [h]

/-- Claim C3: for a non-empty domain with no recorded failure count, exactly
`failure_threshold` consecutive `record_failure` calls (written `ts ++ [tl]`,
so `tl` is the last failure time; no intervening success) leave `is_open` true
while the call is still inside the reset-timeout window; and a single
`record_success` at any point removes the domain from the open set, deletes its
failure count and last-failure time, and makes `is_open` false, regardless of
how many failures preceded it. -/
theorem C3_threshold_open_and_success_reset
    (b : CircuitBreaker) (d : String) (ts : List Int) (tl now : Int)
    (hd : d ≠ "")
    (hfresh : b.failure_counts d = none)
    (hlen : ts.length + 1 = b.failure_threshold)
    (hwin : now - tl ≤ b.reset_timeout) :
    (((applyFailures b d (ts ++ [tl])).is_open d now).1 = true)
    ∧ (∀ c : CircuitBreaker,
        (c.failure_counts d = none → c.last_failure_time d = none) →
        (c.record_success d).circuit_open d = false
        ∧ (c.record_success d).failure_counts d = none
        ∧ (c.record_success d).last_failure_time d = none
        ∧ ((c.record_success d).is_open d now).1 = false) := by
  constructor
  · have happ := applyFailures_append b d ts tl
    have hcnt := applyFailures_counts d hd ts b
    rw [hfresh] at hcnt
    simp only [Option.getD_none, Nat.zero_add] at hcnt
    have hcfg := applyFailures_config d ts b
    have hopen : (applyFailures b d (ts ++ [tl])).circuit_open d = true := by
      rw [happ, record_failure_open _ d tl hd, hcnt, hcfg.1]
      have : b.failure_threshold ≤ ts.length + 1 := by omega
      simp [this]
    have hlast : (applyFailures b d (ts ++ [tl])).last_failure_time d = some tl := by
      rw [happ, record_failure_last _ d tl hd]
    have htimeout : (applyFailures b d (ts ++ [tl])).reset_timeout = b.reset_timeout := by
      rw [happ, (record_failure_config _ d tl).2, hcfg.2]
    unfold CircuitBreaker.is_open
    rw [hlast, htimeout]
    simp only [hd, hopen, Option.getD_some]
    have hnot : ¬ b.reset_timeout < now - tl := by omega
    simp [hnot]
  · intro c hinv
    obtain ⟨g1, g2, g3⟩ := record_success_spec c d hd hinv
    exact ⟨g1, g2, g3, by rw [is_open_false_of_not_open _ d now g1]⟩

/-- Witness for C3 at the configured constants (threshold 3, timeout 1800 s):
three failures at times 10, 20, 30 open the circuit at time 100. -/
theorem C3_witness :
    ("site.com" ≠ "" ∧ (CircuitBreaker.init 3 1800).failure_counts "site.com" = none ∧
       ([(10 : Int), 20]).length + 1 = (CircuitBreaker.init 3 1800).failure_threshold ∧
       (100 : Int) - 30 ≤ (CircuitBreaker.init 3 1800).reset_timeout)
    ∧ (((applyFailures (CircuitBreaker.init 3 1800) "site.com" ([10, 20] ++ [30])).is_open
          "site.com" 100).1 = true)
    ∧ (∀ c : CircuitBreaker,
        (c.failure_counts "site.com" = none → c.last_failure_time "site.com" = none) →
        (c.record_success "site.com").circuit_open "site.com" = false
        ∧ (c.record_success "site.com").failure_counts "site.com" = none
        ∧ (c.record_success "site.com").last_failure_time "site.com" = none
        ∧ ((c.record_success "site.com").is_open "site.com" 100).1 = false) := by
  refine ⟨⟨by decide, by decide, by decide, by decide⟩, ?_⟩
  exact C3_threshold_open_and_success_reset (CircuitBreaker.init 3 1800) "site.com"
    [10, 20] 30 100 (by decide) (by decide) (by decide) (by decide)

/-- Claim C7, counterexample to the claim as stated: with the configured
threshold 3 and reset timeout 1800 s, open the circuit with three failures
whose last timestamp is 0 and query `is_open` at time 1800.  The code keeps
the circuit open (`is_open` returns true, because the reset fires only when
`now - last_failure_time` is strictly greater than the timeout), yet the
claim's window condition `now - last_failure_at < reset_timeout` is false at
this instant: `is_open` returns true outside the claimed window. -/
theorem C7_counterexample :
    (((applyFailures (CircuitBreaker.init 3 1800) "site.com" [0, 0, 0]).is_open
        "site.com" 1800).1 = true)
    ∧ ((applyFailures (CircuitBreaker.init 3 1800) "site.com" [0, 0, 0]).failure_counts
        "site.com" = some 3)
    ∧ ((applyFailures (CircuitBreaker.init 3 1800) "site.com" [0, 0, 0]).last_failure_time
        "site.com" = some 0)
    ∧ ¬((1800 : Int) - 0 < 1800) := by
  refine ⟨?_, ?_, ?_, by decide⟩ <;> decide

/-- Claim C7 as amended (the strict window bound `<` is relaxed to `≤`, which
is what the code's reset test `now - last > reset_timeout` leaves open):
`is_open d now` returns true only if `d` is in the open set, its failure count
reached the threshold (given the invariant that an open domain carries such a
count), and `now - last_failure_at ≤ reset_timeout`; and once the timeout has
strictly elapsed, the `is_open` call itself removes the domain from the open
set, deletes its failure count and last-failure time, and returns false, with
no explicit reset call needed. -/
theorem C7_is_open_window_and_lazy_reset
    (b : CircuitBreaker) (d : String) (now : Int)
    (hinv : b.circuit_open d = true →
      ∃ c, b.failure_counts d = some c ∧ b.failure_threshold ≤ c) :
    ((b.is_open d now).1 = true →
      d ≠ "" ∧ b.circuit_open d = true
      ∧ (∃ c, b.failure_counts d = some c ∧ b.failure_threshold ≤ c)
      ∧ now - (b.last_failure_time d).getD 0 ≤ b.reset_timeout)
    ∧ (d ≠ "" → b.circuit_open d = true →
        b.reset_timeout < now - (b.last_failure_time d).getD 0 →
        (b.is_open d now).1 = false
        ∧ ((b.is_open d now).2.circuit_open d = false
        ∧ (b.is_open d now).2.failure_counts d = none
        ∧ (b.is_open d now).2.last_failure_time d = none)) := by
  constructor
  · intro htrue
    unfold CircuitBreaker.is_open at htrue
    by_cases hguard : d = "" ∨ b.circuit_open d = false
    · simp [hguard] at htrue
    · push_neg at hguard
      obtain ⟨hd, hop⟩ := hguard
      have hop : b.circuit_open d = true := by
        cases h : b.circuit_open d
        · exact absurd h hop
        · rfl
      by_cases hexp : b.reset_timeout < now - (b.last_failure_time d).getD 0
      · simp [hd, hop, hexp] at htrue
      · exact ⟨hd, hop, hinv hop, by omega⟩
  · intro hd hop hexp
    unfold CircuitBreaker.is_open
    have hguard : ¬(d = "" ∨ b.circuit_open d = false) := by
      push_neg
      exact ⟨hd, by simp [hop]⟩
    simp [hguard, hexp]

/-- Witness for C7 (amended): a freshly opened circuit queried inside the
window, and the same circuit queried after the timeout has strictly elapsed. -/
theorem C7_witness :
    ((applyFailures (CircuitBreaker.init 3 1800) "site.com" [0, 0, 0]).circuit_open
        "site.com" = true →
      ∃ c, (applyFailures (CircuitBreaker.init 3 1800) "site.com" [0, 0, 0]).failure_counts
          "site.com" = some c
        ∧ (applyFailures (CircuitBreaker.init 3 1800) "site.com" [0, 0, 0]).failure_threshold
            ≤ c)
    ∧ (((applyFailures (CircuitBreaker.init 3 1800) "site.com" [0, 0, 0]).is_open
          "site.com" 2000).1 = true →
        "site.com" ≠ ""
        ∧ (applyFailures (CircuitBreaker.init 3 1800) "site.com" [0, 0, 0]).circuit_open
            "site.com" = true
        ∧ (∃ c, (applyFailures (CircuitBreaker.init 3 1800) "site.com"
              [0, 0, 0]).failure_counts "site.com" = some c
            ∧ (applyFailures (CircuitBreaker.init 3 1800) "site.com"
                [0, 0, 0]).failure_threshold ≤ c)
        ∧ (2000 : Int) -
            ((applyFailures (CircuitBreaker.init 3 1800) "site.com"
              [0, 0, 0]).last_failure_time "site.com").getD 0
            ≤ (applyFailures (CircuitBreaker.init 3 1800) "site.com" [0, 0, 0]).reset_timeout)
    ∧ ("site.com" ≠ "" →
        (applyFailures (CircuitBreaker.init 3 1800) "site.com" [0, 0, 0]).circuit_open
            "site.com" = true →
        (applyFailures (CircuitBreaker.init 3 1800) "site.com" [0, 0, 0]).reset_timeout <
          (2000 : Int) - ((applyFailures (CircuitBreaker.init 3 1800) "site.com"
            [0, 0, 0]).last_failure_time "site.com").getD 0 →
        ((applyFailures (CircuitBreaker.init 3 1800) "site.com" [0, 0, 0]).is_open
            "site.com" 2000).1 = false
        ∧ (((applyFailures (CircuitBreaker.init 3 1800) "site.com" [0, 0, 0]).is_open
              "site.com" 2000).2.circuit_open "site.com" = false
        ∧ ((applyFailures (CircuitBreaker.init 3 1800) "site.com" [0, 0, 0]).is_open
              "site.com" 2000).2.failure_counts "site.com" = none
        ∧ ((applyFailures (CircuitBreaker.init 3 1800) "site.com" [0, 0, 0]).is_open
              "site.com" 2000).2.last_failure_time "site.com" = none)) := by
  refine ⟨fun _ => ⟨3, by decide, by decide⟩, ?_⟩
  exact C7_is_open_window_and_lazy_reset
    (applyFailures (CircuitBreaker.init 3 1800) "site.com" [0, 0, 0]) "site.com" 2000
    (fun _ => ⟨3, by decide, by decide⟩)

/-- Claim C10: for the falsy domain (the empty string), `record_failure` and
`record_success` return immediately with the circuit-breaker state unchanged,
and `is_open` returns false without modifying state; and a domain that is not
in the open set is never reported open. -/
theorem C10_falsy_domain_frame (b : CircuitBreaker) (now : Int) (d : String) :
    b.record_failure "" now = b
    ∧ b.record_success "" = b
    ∧ b.is_open "" now = (false, b)
    ∧ (b.circuit_open d = false → b.is_open d now = (false, b)) := by
  refine ⟨?_, ?_, ?_, fun h => is_open_false_of_not_open b d now h⟩
  · simp [CircuitBreaker.record_failure]
  · simp [CircuitBreaker.record_success]
  · simp [CircuitBreaker.is_open]

/-- Witness for C10 at a concrete breaker state and never-failing domain. -/
theorem C10_witness :
    (CircuitBreaker.init 3 1800).record_failure "" 5 = CircuitBreaker.init 3 1800
    ∧ (CircuitBreaker.init 3 1800).record_success "" = CircuitBreaker.init 3 1800
    ∧ (CircuitBreaker.init 3 1800).is_open "" 5 = (false, CircuitBreaker.init 3 1800)
    ∧ ((CircuitBreaker.init 3 1800).circuit_open "quiet.com" = false →
        (CircuitBreaker.init 3 1800).is_open "quiet.com" 5 =
          (false, CircuitBreaker.init 3 1800)) := by
  exact C10_falsy_domain_frame (CircuitBreaker.init 3 1800) 5 "quiet.com"

lemma mark_tt_exists_pending (record_id : Nat) (now : Int) :
    ∀ s : List BizRecord, (mark_record_as_processing s record_id now).1 = true →
      ∃ r ∈ s, r.id = record_id ∧ r.emailstatus = "pending" := by
  intro s
  induction s with
  | nil => simp [mark_record_as_processing]
  | cons r rest ih =>
    intro h
    by_cases hc : r.id == record_id && r.emailstatus == "pending"
    · refine ⟨r, by simp, ?_⟩
      simp only [Bool.and_eq_true, beq_iff_eq] at hc
      exact hc
    · simp only [mark_record_as_processing, Bool.ite_eq_true_distrib] at h
      rw [if_neg hc] at h
      obtain ⟨q, hq, hq2⟩ := ih h
      exact ⟨q, by simp [hq], hq2⟩

lemma mark_ids (record_id : Nat) (now : Int) :
    ∀ s : List BizRecord,
      (mark_record_as_processing s record_id now).2.map (fun r => r.id) =
        s.map (fun r => r.id) := by
  intro s
  induction s with
  | nil => simp [mark_record_as_processing]
  | cons r rest ih =>
    by_cases hc : r.id == record_id && r.emailstatus == "pending"
    · simp [mark_record_as_processing, hc, claimedDoc]
    · simp [mark_record_as_processing, hc, ih]

lemma mark_findById_other (record_id j : Nat) (now : Int) (hne : j ≠ record_id) :
    ∀ s : List BizRecord,
      findById (mark_record_as_processing s record_id now).2 j = findById s j := by
  intro s
  induction s with
  | nil => simp [mark_record_as_processing]
  | cons r rest ih =>
    by_cases hc : r.id == record_id && r.emailstatus == "pending"
    · have hrid : r.id = record_id := by
        simp only [Bool.and_eq_true, beq_iff_eq] at hc
        exact hc.1
      have hrj : ¬(r.id == j) := by simp [hrid]; omega
      simp [mark_record_as_processing, hc, findById, List.find?_cons, hrj]
    · by_cases hrj : r.id == j
      · simp [mark_record_as_processing, hc, findById, List.find?_cons, hrj]
      · simp only [mark_record_as_processing, if_neg hc]
        simp only [findById, List.find?_cons] at ih ⊢
        simp [hrj, ih]

lemma nodup_findById_mem {s : List BizRecord} {r : BizRecord} {i : Nat}
    (hnd : (s.map (fun q => q.id)).Nodup) (hmem : r ∈ s) (hid : r.id = i) :
    findById s i = some r := by
  induction s with
  | nil => simp at hmem
  | cons q rest ih =>
    simp only [List.map_cons, List.nodup_cons] at hnd
    rcases List.mem_cons.mp hmem with hrq | hrest
    · subst hrq
      simp [findById, List.find?_cons, hid]
    · have hqi : ¬(q.id == i) := by
        intro hcontra
        exact hnd.1 (by
          rw [show q.id = i from by simpa using hcontra, ← hid]
          exact List.mem_map_of_mem (fun x => x.id) hrest)
      simp only [findById, List.find?_cons, hqi]
      exact ih hnd.2 hrest

lemma mark_findById_success {record_id : Nat} {now : Int} :
    ∀ s : List BizRecord, (s.map (fun q => q.id)).Nodup →
      (mark_record_as_processing s record_id now).1 = true →
      ∃ r, findById s record_id = some r ∧ r.emailstatus = "pending" ∧
        findById (mark_record_as_processing s record_id now).2 record_id =
          some (claimedDoc r now) := by
  intro s
  induction s with
  | nil => simp [mark_record_as_processing]
  | cons q rest ih =>
    intro hnd htrue
    simp only [List.map_cons, List.nodup_cons] at hnd
    by_cases hc : q.id == record_id && q.emailstatus == "pending"
    · obtain ⟨h1, h2⟩ : q.id = record_id ∧ q.emailstatus = "pending" := by
        simpa using hc
      refine ⟨q, by simp [findById, List.find?_cons, h1], h2, ?_⟩
      simp [mark_record_as_processing, hc, findById, List.find?_cons, claimedDoc, h1, h2]
    · simp only [mark_record_as_processing, if_neg hc] at htrue ⊢
      by_cases hq : q.id == record_id
      · exfalso
        have hqi : q.id = record_id := by simpa using hq
        obtain ⟨r, hrmem, hrid, _⟩ := mark_tt_exists_pending record_id now rest htrue
        exact hnd.1 (by rw [hqi, ← hrid]; exact List.mem_map_of_mem (fun x => x.id) hrmem)
      · obtain ⟨r, hfind, hpend, hfind2⟩ := ih hnd.2 htrue
        exact ⟨r, by simpa [findById, List.find?_cons, hq] using hfind, hpend,
          by simpa [findById, List.find?_cons, hq] using hfind2⟩

lemma mark_findById_processing_stable {i j : Nat} {now : Int} {r : BizRecord}
    (hproc : r.emailstatus = "processing") :
    ∀ s : List BizRecord, findById s i = some r →
      findById (mark_record_as_processing s j now).2 i = some r := by
  intro s
  induction s with
  | nil => simp [findById, mark_record_as_processing]
  | cons q rest ih =>
    intro hfind
    by_cases hqi : q.id == i
    · have hq : q = r := by simpa [findById, List.find?_cons, hqi] using hfind
      subst hq
      have hc : ¬(q.id == j && q.emailstatus == "pending") := by
        simp [hproc]
      simp [mark_record_as_processing, hc, findById, List.find?_cons, hqi]
    · have hrest : findById rest i = some r := by
        simpa [findById, List.find?_cons, hqi] using hfind
      by_cases hc : q.id == j && q.emailstatus == "pending"
      · simpa [mark_record_as_processing, hc, findById, List.find?_cons, claimedDoc, hqi]
          using hrest
      · simpa [mark_record_as_processing, hc, findById, List.find?_cons, hqi] using ih hrest

lemma claimPending_ids (now : Int) :
    ∀ (cands : List BizRecord) (s : List BizRecord),
      (claimPending s cands now).2.map (fun r => r.id) = s.map (fun r => r.id) := by
  intro cands
  induction cands with
  | nil => intro s; simp [claimPending]
  | cons c rest ih =>
    intro s
    simp only [claimPending]
    rw [ih, mark_ids]

lemma claimPending_processing_stable {i : Nat} {now : Int} {r : BizRecord}
    (hproc : r.emailstatus = "processing") :
    ∀ (cands : List BizRecord) (s : List BizRecord), findById s i = some r →
      findById (claimPending s cands now).2 i = some r := by
  intro cands
  induction cands with
  | nil => intro s h; simpa [claimPending] using h
  | cons c rest ih =>
    intro s h
    simp only [claimPending]
    exact ih _ (mark_findById_processing_stable hproc s h)

lemma claimPending_claimed_spec (now : Int) :
    ∀ (cands : List BizRecord) (s : List BizRecord),
      (s.map (fun q => q.id)).Nodup →
      ∀ c ∈ (claimPending s cands now).1,
        c ∈ cands ∧
        ∃ r, findById (claimPending s cands now).2 c.id = some r ∧
          r.emailstatus = "processing" ∧ r.processing_started_at = some now := by
  intro cands
  induction cands with
  | nil => intro s _ c hc; simp [claimPending] at hc
  | cons c0 rest ih =>
    intro s hnd c hc
    have hnd2 : ((mark_record_as_processing s c0.id now).2.map (fun q => q.id)).Nodup := by
      rw [mark_ids]
      exact hnd
    simp only [claimPending] at hc ⊢
    by_cases hm : (mark_record_as_processing s c0.id now).1
    · rw [if_pos hm] at hc
      rcases List.mem_cons.mp hc with hceq | hcrest
      · rw [hceq]
        obtain ⟨r, _, _, hfind2⟩ := mark_findById_success s hnd hm
        refine ⟨List.mem_cons_self c0 rest, claimedDoc r now, ?_, rfl, rfl⟩
        exact claimPending_processing_stable rfl rest _ hfind2
      · obtain ⟨hmem, hrest⟩ := ih _ hnd2 c hcrest
        exact ⟨List.mem_cons_of_mem c0 hmem, hrest⟩
    · rw [if_neg hm] at hc
      obtain ⟨hmem, hrest⟩ := ih _ hnd2 c hc
      exact ⟨List.mem_cons_of_mem c0 hmem, hrest⟩

lemma mark_mark_false {s : List BizRecord} {i : Nat} {now now2 : Int}
    (hnd : (s.map (fun q => q.id)).Nodup)
    (h1 : (mark_record_as_processing s i now).1 = true) :
    (mark_record_as_processing (mark_record_as_processing s i now).2 i now2).1 = false := by
  by_contra hcontra
  have h2 : (mark_record_as_processing (mark_record_as_processing s i now).2 i now2).1 = true := by
    cases hv : (mark_record_as_processing (mark_record_as_processing s i now).2 i now2).1
    · exact absurd hv hcontra
    · rfl
  obtain ⟨r2, hr2mem, hr2id, hr2pend⟩ :=
    mark_tt_exists_pending i now2 (mark_record_as_processing s i now).2 h2
  obtain ⟨r, _, _, hfind2⟩ := mark_findById_success s hnd h1
  have hnd2 : ((mark_record_as_processing s i now).2.map (fun q => q.id)).Nodup := by
    rw [mark_ids]
    exact hnd
  have := nodup_findById_mem hnd2 hr2mem hr2id
  rw [hfind2] at this
  have hr2 : r2 = claimedDoc r now := by
    injection this.symm
  rw [hr2] at hr2pend
  simp [claimedDoc] at hr2pend

/-- Claim C1: `get_pending_records_atomic` returns exactly the candidates whose
conditional `pending → processing` update succeeded.  Every returned record was
a pending record with a valid website in the starting collection, and in the
resulting collection it carries status `processing` with
`processing_started_at` stamped; the conditional update succeeds only on a
record that is still `pending` at the moment of the update (for an arbitrary
intermediate state, i.e. compare-and-swap semantics); two claim attempts on the
same item never both succeed; and when nothing matches the claim query the call
returns an empty list (no error). -/
theorem C1_atomic_claim (s : List BizRecord) (limit batch_size : Nat) (now now2 : Int)
    (i : Nat) (hnd : (s.map (fun q => q.id)).Nodup) :
    (∀ c ∈ (get_pending_records_atomic s limit batch_size now).1,
      c ∈ s ∧ pendingQuery c = true ∧
      ∃ r, findById (get_pending_records_atomic s limit batch_size now).2 c.id = some r ∧
        r.emailstatus = "processing" ∧ r.processing_started_at = some now)
    ∧ (∀ (u : List BizRecord) (j : Nat),
        (mark_record_as_processing u j now).1 = true →
        ∃ r ∈ u, r.id = j ∧ r.emailstatus = "pending")
    ∧ ((mark_record_as_processing s i now).1 = true →
        (mark_record_as_processing (mark_record_as_processing s i now).2 i now2).1 = false)
    ∧ (s.filter pendingQuery = [] →
        get_pending_records_atomic s limit batch_size now = ([], s)) := by
  refine ⟨?_, fun u j h => mark_tt_exists_pending j now u h,
    fun h => mark_mark_false hnd h, ?_⟩
  · intro c hc
    have hspec := claimPending_claimed_spec now
      ((s.filter pendingQuery).take (if 0 < limit then min batch_size limit else batch_size))
      s hnd c hc
    obtain ⟨hmem, hrest⟩ := hspec
    have hfc : c ∈ s.filter pendingQuery := List.take_subset _ _ hmem
    have hmemf := List.mem_filter.mp hfc
    exact ⟨hmemf.1, hmemf.2, hrest⟩
  · intro hfilter
    simp [get_pending_records_atomic, hfilter, claimPending]

/-- Witness for C1: a two-record collection with one claimable record. -/
theorem C1_witness :
    (([⟨1, some "A", some "http://a.com", "pending", none, [], none, none, none⟩,
       ⟨2, some "B", some "http://b.com", "found", none, [], none, none, none⟩] :
        List BizRecord).map (fun q => q.id)).Nodup
    ∧ ((∀ c ∈ (get_pending_records_atomic
          [⟨1, some "A", some "http://a.com", "pending", none, [], none, none, none⟩,
           ⟨2, some "B", some "http://b.com", "found", none, [], none, none, none⟩] 0 10 7).1,
        c ∈ ([⟨1, some "A", some "http://a.com", "pending", none, [], none, none, none⟩,
              ⟨2, some "B", some "http://b.com", "found", none, [], none, none, none⟩] :
          List BizRecord) ∧ pendingQuery c = true ∧
        ∃ r, findById (get_pending_records_atomic
            [⟨1, some "A", some "http://a.com", "pending", none, [], none, none, none⟩,
             ⟨2, some "B", some "http://b.com", "found", none, [], none, none, none⟩]
            0 10 7).2 c.id = some r ∧
          r.emailstatus = "processing" ∧ r.processing_started_at = some 7)
      ∧ (∀ (u : List BizRecord) (j : Nat),
          (mark_record_as_processing u j 7).1 = true →
          ∃ r ∈ u, r.id = j ∧ r.emailstatus = "pending")
      ∧ ((mark_record_as_processing
            [⟨1, some "A", some "http://a.com", "pending", none, [], none, none, none⟩,
             ⟨2, some "B", some "http://b.com", "found", none, [], none, none, none⟩] 1 7).1 =
              true →
          (mark_record_as_processing (mark_record_as_processing
            [⟨1, some "A", some "http://a.com", "pending", none, [], none, none, none⟩,
             ⟨2, some "B", some "http://b.com", "found", none, [], none, none, none⟩]
              1 7).2 1 9).1 = false)
      ∧ (([⟨1, some "A", some "http://a.com", "pending", none, [], none, none, none⟩,
           ⟨2, some "B", some "http://b.com", "found", none, [], none, none, none⟩] :
            List BizRecord).filter pendingQuery = [] →
          get_pending_records_atomic
            [⟨1, some "A", some "http://a.com", "pending", none, [], none, none, none⟩,
             ⟨2, some "B", some "http://b.com", "found", none, [], none, none, none⟩] 0 10 7 =
            ([],
             [⟨1, some "A", some "http://a.com", "pending", none, [], none, none, none⟩,
              ⟨2, some "B", some "http://b.com", "found", none, [], none, none, none⟩]))) := by
  exact ⟨by decide,
    C1_atomic_claim
      [⟨1, some "A", some "http://a.com", "pending", none, [], none, none, none⟩,
       ⟨2, some "B", some "http://b.com", "found", none, [], none, none, none⟩]
      0 10 7 9 1 (by decide)⟩

lemma recovered_not_stale (cutoff max_processing_time : Int) (r : BizRecord) :
    staleQuery cutoff (if staleQuery cutoff r then recoveredDoc max_processing_time r else r) =
      false := by
  by_cases h : staleQuery cutoff r = true
  · rw [if_pos h]
    simp [staleQuery, recoveredDoc]
  · rw [if_neg h]
    simpa using h

/-- Claim C4: `recover_stale_processing_records` transitions back to `pending`
exactly the records whose status is `processing` and whose
`processing_started_at` precedes `now - max_processing_time`, clearing the
timestamp and appending the recovery annotation while leaving every other
record untouched; it returns the number of records mutated; and an immediate
second run with no intervening claims recovers zero records. -/
theorem C4_stale_recovery (s : List BizRecord) (now max_processing_time : Int) :
    (recover_stale_processing_records s now max_processing_time).1 =
      (s.filter (staleQuery (now - max_processing_time))).length
    ∧ (recover_stale_processing_records s now max_processing_time).2.length = s.length
    ∧ (∀ k (h1 : k < s.length)
          (h2 : k < (recover_stale_processing_records s now max_processing_time).2.length),
        (staleQuery (now - max_processing_time) (s.get ⟨k, h1⟩) = true →
          ((recover_stale_processing_records s now max_processing_time).2.get
              ⟨k, h2⟩).emailstatus = "pending"
          ∧ ((recover_stale_processing_records s now max_processing_time).2.get
              ⟨k, h2⟩).processing_started_at = none
          ∧ ((recover_stale_processing_records s now max_processing_time).2.get
              ⟨k, h2⟩).recovery_note = some (recoveryNote max_processing_time)
          ∧ ((recover_stale_processing_records s now max_processing_time).2.get
              ⟨k, h2⟩).id = (s.get ⟨k, h1⟩).id
          ∧ ((recover_stale_processing_records s now max_processing_time).2.get
              ⟨k, h2⟩).email = (s.get ⟨k, h1⟩).email)
        ∧ (staleQuery (now - max_processing_time) (s.get ⟨k, h1⟩) = false →
            (recover_stale_processing_records s now max_processing_time).2.get ⟨k, h2⟩ =
              s.get ⟨k, h1⟩))
    ∧ (recover_stale_processing_records
          (recover_stale_processing_records s now max_processing_time).2
          now max_processing_time).1 = 0 := by
  refine ⟨?_, ?_, ?_, ?_⟩
  · simp [recover_stale_processing_records, List.countP_eq_length_filter]
  · simp [recover_stale_processing_records]
  · intro k h1 h2
    have hget : (recover_stale_processing_records s now max_processing_time).2.get ⟨k, h2⟩ =
        (fun r => if staleQuery (now - max_processing_time) r
          then recoveredDoc max_processing_time r else r) (s.get ⟨k, h1⟩) := by
      simp [recover_stale_processing_records]
    constructor
    · intro hstale
      rw [hget]
      simp only [List.get_eq_getElem] at hstale
      simp [hstale, recoveredDoc]
    · intro hnot
      rw [hget]
      simp only [List.get_eq_getElem] at hnot ⊢
      simp [hnot]
  · simp only [recover_stale_processing_records, List.countP_map]
    rw [List.countP_eq_zero]
    intro r _
    simp only [Function.comp_apply]
    rw [recovered_not_stale (now - max_processing_time) max_processing_time r]
    simp

/-- Witness for C4 on a three-record collection: one stale processing record,
one fresh processing record, one pending record. -/
theorem C4_witness :
    (recover_stale_processing_records
        [⟨1, none, some "http://a.com", "processing", some 0, [], none, none, none⟩,
         ⟨2, none, some "http://b.com", "processing", some 90, [], none, none, none⟩,
         ⟨3, none, some "http://c.com", "pending", none, [], none, none, none⟩]
        100 50).1 = 1
    ∧ (recover_stale_processing_records
        (recover_stale_processing_records
          [⟨1, none, some "http://a.com", "processing", some 0, [], none, none, none⟩,
           ⟨2, none, some "http://b.com", "processing", some 90, [], none, none, none⟩,
           ⟨3, none, some "http://c.com", "pending", none, [], none, none, none⟩]
          100 50).2 100 50).1 = 0 := by
  constructor
  · decide
  · exact (C4_stale_recovery
      [⟨1, none, some "http://a.com", "processing", some 0, [], none, none, none⟩,
       ⟨2, none, some "http://b.com", "processing", some 90, [], none, none, none⟩,
       ⟨3, none, some "http://c.com", "pending", none, [], none, none, none⟩]
      100 50).2.2.2

lemma update_record_findById (record_id : Nat) (status : String) (emails : List String)
    (error_message : Option String) (now : Int) :
    ∀ s : List BizRecord,
      findById (update_record_with_email_results s record_id status emails error_message now).2
          record_id =
        (findById s record_id).map (emailResultDoc status emails error_message now) := by
  intro s
  induction s with
  | nil => simp [update_record_with_email_results, findById]
  | cons r rest ih =>
    by_cases hr : r.id == record_id
    · simp [update_record_with_email_results, hr, findById, List.find?_cons, emailResultDoc]
    · simp only [update_record_with_email_results, if_neg hr]
      simp only [findById, List.find?_cons, hr] at ih ⊢
      simpa using ih

/-- Claim C9: for every call to `update_record_with_email_results`, the email
list stored on the matched record is exactly `emails.take 15`, i.e. the first
15 elements of `emails` (elementwise the same, of length `min 15 emails.length`);
emails beyond the 15th are silently discarded, whatever the status. -/
theorem C9_email_truncation (s : List BizRecord) (record_id : Nat) (status : String)
    (emails : List String) (error_message : Option String) (now : Int) :
    (findById (update_record_with_email_results s record_id status emails error_message
          now).2 record_id =
        (findById s record_id).map (emailResultDoc status emails error_message now))
    ∧ (∀ r, findById (update_record_with_email_results s record_id status emails error_message
          now).2 record_id = some r →
        r.email = emails.take 15
        ∧ r.email.length = min 15 emails.length
        ∧ (∀ k, k < r.email.length → r.email.get? k = emails.get? k)
        ∧ (15 < emails.length → r.email ≠ emails)) := by
  refine ⟨update_record_findById record_id status emails error_message now s, ?_⟩
  intro r hr
  rw [update_record_findById record_id status emails error_message now s] at hr
  cases hfind : findById s record_id with
  | none => rw [hfind] at hr; simp at hr
  | some q =>
    rw [hfind] at hr
    rw [show (some q).map (emailResultDoc status emails error_message now) =
        some (emailResultDoc status emails error_message now q) from rfl] at hr
    have hq : r = emailResultDoc status emails error_message now q := by
      injection hr.symm
    have hemail : r.email = emails.take 15 := by rw [hq]; rfl
    refine ⟨hemail, ?_, ?_, ?_⟩
    · rw [hemail]
      simp [List.length_take]
    · intro k hk
      rw [hemail] at hk ⊢
      rw [List.length_take] at hk
      simp only [List.get?_eq_getElem?]
      exact List.getElem?_take_of_lt (by omega)
    · intro hlong
      rw [hemail]
      intro hcontra
      have : (emails.take 15).length = emails.length := by rw [hcontra]
      rw [List.length_take] at this
      omega

/-- Witness for C9: a 16-email result list is stored truncated to 15. -/
theorem C9_witness :
    (∀ r, findById (update_record_with_email_results
        [⟨1, none, some "http://a.com", "processing", some 0, [], none, none, none⟩] 1
        "found" ["e0", "e1", "e2", "e3", "e4", "e5", "e6", "e7", "e8", "e9", "e10", "e11",
                 "e12", "e13", "e14", "e15"] none 9).2 1 = some r →
      r.email = (["e0", "e1", "e2", "e3", "e4", "e5", "e6", "e7", "e8", "e9", "e10", "e11",
                  "e12", "e13", "e14", "e15"] : List String).take 15
      ∧ r.email.length = min 15 (["e0", "e1", "e2", "e3", "e4", "e5", "e6", "e7", "e8", "e9",
          "e10", "e11", "e12", "e13", "e14", "e15"] : List String).length
      ∧ (∀ k, k < r.email.length →
          r.email.get? k = (["e0", "e1", "e2", "e3", "e4", "e5", "e6", "e7", "e8", "e9",
            "e10", "e11", "e12", "e13", "e14", "e15"] : List String).get? k)
      ∧ (15 < (["e0", "e1", "e2", "e3", "e4", "e5", "e6", "e7", "e8", "e9", "e10", "e11",
            "e12", "e13", "e14", "e15"] : List String).length →
          r.email ≠ ["e0", "e1", "e2", "e3", "e4", "e5", "e6", "e7", "e8", "e9", "e10", "e11",
            "e12", "e13", "e14", "e15"])) :=
  (C9_email_truncation
    [⟨1, none, some "http://a.com", "processing", some 0, [], none, none, none⟩] 1
    "found" ["e0", "e1", "e2", "e3", "e4", "e5", "e6", "e7", "e8", "e9", "e10", "e11",
             "e12", "e13", "e14", "e15"] none 9).2

lemma aggregate_processed (outs : List (Except String (Nat × String × Nat))) :
    ∀ st : RunStats, (process_batch_aggregate st outs).processed = st.processed + outs.length := by
  induction outs with
  | nil => intro st; simp [process_batch_aggregate]
  | cons o rest ih =>
    intro st
    have hstep : process_batch_aggregate st (o :: rest) =
        process_batch_aggregate (foldOutcome st o) rest := by
      simp [process_batch_aggregate]
    rw [hstep, ih (foldOutcome st o)]
    have : (foldOutcome st o).processed = st.processed + 1 := by
      cases o with
      | error e => rfl
      | ok v =>
        obtain ⟨rid, rs, ne⟩ := v
        simp only [foldOutcome]
        by_cases h1 : rs == "found"
        · simp [h1]
        · by_cases h2 : rs == "checked_no_email"
          · simp [h1, h2]
          · by_cases h3 : strStartsWith rs "failed"
            · simp [h1, h2, h3]
            · by_cases h4 : strStartsWith rs "skipped"
              · simp [h1, h2, h3, h4]
              · simp [h1, h2, h3, h4]
    rw [this]
    simp
    omega

/-- Claim C6: an unhandled exception from a single dispatched unit of work is
caught at the dispatch boundary of `process_batch`: it contributes exactly one
increment to `failed` and one to `processed`, and aggregation continues over
every remaining completed future, so the batch is not aborted — every
dispatched future is still folded into the statistics. -/
theorem C6_unit_failure_isolated (st : RunStats)
    (pre post : List (Except String (Nat × String × Nat))) (e : String) :
    process_batch_aggregate st (pre ++ Except.error e :: post) =
      process_batch_aggregate
        { process_batch_aggregate st pre with
          processed := (process_batch_aggregate st pre).processed + 1,
          failed := (process_batch_aggregate st pre).failed + 1 } post
    ∧ (process_batch_aggregate st (pre ++ Except.error e :: post)).processed =
        st.processed + (pre.length + 1 + post.length) := by
  constructor
  · simp only [process_batch_aggregate, List.foldl_append, List.foldl_cons]
    rfl
  · rw [aggregate_processed]
    simp
    omega

lemma isPrefixOf_head_ne {a b : Char} {l1 l2 l : List Char} (hab : a ≠ b)
    (h1 : List.isPrefixOf (a :: l1) l = true) (h2 : List.isPrefixOf (b :: l2) l = true) :
    False := by
  cases l with
  | nil => simp [List.isPrefixOf] at h1
  | cons c t =>
    simp only [List.isPrefixOf, Bool.and_eq_true, beq_iff_eq] at h1 h2
    exact hab (h1.1.trans h2.1.symm)

lemma strStartsWith_failed_skipped (s : String) (h : strStartsWith s "failed" = true) :
    strStartsWith s "skipped" = false := by
  cases hx : strStartsWith s "skipped"
  · rfl
  · exfalso
    unfold strStartsWith at h hx
    rw [show "failed".toList = 'f' :: "ailed".toList from rfl] at h
    rw [show "skipped".toList = 's' :: "kipped".toList from rfl] at hx
    exact isPrefixOf_head_ne (by decide) h hx

lemma foldOutcome_ok (st : RunStats) (rid : Nat) (s : String) (n : Nat) :
    foldOutcome st (Except.ok (rid, s, n)) =
      { st with
        processed := st.processed + 1,
        found := st.found + (if s == "found" then 1 else 0),
        emails_collected := st.emails_collected + (if s == "found" then n else 0),
        checked_no_email := st.checked_no_email + (if s == "checked_no_email" then 1 else 0),
        failed := st.failed + (if strStartsWith s "failed" then 1 else 0),
        skipped := st.skipped + (if strStartsWith s "skipped" then 1 else 0) } := by
  simp only [foldOutcome]
  by_cases h1 : s == "found"
  · have hs : s = "found" := by simpa using h1
    subst hs
    have hf : strStartsWith "found" "failed" = false := by decide
    have hsk : strStartsWith "found" "skipped" = false := by decide
    simp [hf, hsk]
  · by_cases h2 : s == "checked_no_email"
    · have hs : s = "checked_no_email" := by simpa using h2
      subst hs
      have hf : strStartsWith "checked_no_email" "failed" = false := by decide
      have hsk : strStartsWith "checked_no_email" "skipped" = false := by decide
      simp [hf, hsk]
    · by_cases h3 : strStartsWith s "failed"
      · have h4 : strStartsWith s "skipped" = false := strStartsWith_failed_skipped s h3
        simp [h1, h2, h3, h4]
      · by_cases h4 : strStartsWith s "skipped"
        · simp [h1, h2, h3, h4]
        · simp [h1, h2, h3, h4]

/-- Claim C8: folding a batch of `n` completed outcomes into the running
statistics counts each outcome in exactly one category — `found` (also adding
that unit's email count to `emails_collected`), `checked_no_email`, statuses
with prefix `failed`, statuses with prefix `skipped` — and increments
`processed` once per completed unit, so the final counters match the
distribution of outcome statuses exactly. -/
theorem C8_batch_aggregation (st : RunStats) (outs : List (Nat × String × Nat)) :
    (process_batch_aggregate st (outs.map Except.ok)).processed = st.processed + outs.length
    ∧ (process_batch_aggregate st (outs.map Except.ok)).found =
        st.found + outs.countP (fun o => o.2.1 == "found")
    ∧ (process_batch_aggregate st (outs.map Except.ok)).emails_collected =
        st.emails_collected +
          ((outs.filter (fun o => o.2.1 == "found")).map (fun o => o.2.2)).sum
    ∧ (process_batch_aggregate st (outs.map Except.ok)).checked_no_email =
        st.checked_no_email + outs.countP (fun o => o.2.1 == "checked_no_email")
    ∧ (process_batch_aggregate st (outs.map Except.ok)).failed =
        st.failed + outs.countP (fun o => strStartsWith o.2.1 "failed")
    ∧ (process_batch_aggregate st (outs.map Except.ok)).skipped =
        st.skipped + outs.countP (fun o => strStartsWith o.2.1 "skipped") := by
  induction outs generalizing st with
  | nil => simp [process_batch_aggregate]
  | cons o rest ih =>
    obtain ⟨rid, rs, ne⟩ := o
    have hstep : process_batch_aggregate st (((rid, rs, ne) :: rest).map Except.ok) =
        process_batch_aggregate (foldOutcome st (Except.ok (rid, rs, ne)))
          (rest.map Except.ok) := by
      simp [process_batch_aggregate]
    obtain ⟨g1, g2, g3, g4, g5, g6⟩ := ih (foldOutcome st (Except.ok (rid, rs, ne)))
    rw [foldOutcome_ok] at g1 g2 g3 g4 g5 g6
    refine ⟨?_, ?_, ?_, ?_, ?_, ?_⟩
    · rw [hstep, foldOutcome_ok, g1]
      simp
      omega
    · rw [hstep, foldOutcome_ok, g2]
      by_cases hp : rs == "found" <;> (simp [List.countP_cons, hp]; all_goals omega)
    · rw [hstep, foldOutcome_ok, g3]
      by_cases hp : rs == "found" <;> (simp [List.filter_cons, hp]; all_goals omega)
    · rw [hstep, foldOutcome_ok, g4]
      by_cases hp : rs == "checked_no_email" <;> (simp [List.countP_cons, hp]; all_goals omega)
    · rw [hstep, foldOutcome_ok, g5]
      by_cases hp : strStartsWith rs "failed" <;> (simp [List.countP_cons, hp]; all_goals omega)
    · rw [hstep, foldOutcome_ok, g6]
      by_cases hp : strStartsWith rs "skipped" <;> (simp [List.countP_cons, hp]; all_goals omega)

lemma submitLoop_flag_nil (flag : Nat → Bool) (rs : List α) (i : Nat) (h : flag i = true) :
    submitLoop flag rs i = [] := by
  cases rs with
  | nil => rfl
  | cons r rest => simp [submitLoop, h]

lemma mainClaimLoop_flag_nil (flag : Nat → Bool) (batch_size : Nat) (now : Int)
    (fuel k : Nat) (s : List BizRecord) (h : flag k = true) :
    mainClaimLoop flag batch_size now fuel k s = ([], s) := by
  cases fuel with
  | zero => rfl
  | succ m => simp [mainClaimLoop, h]

/-- Claim C2, evaluated at the failing scenario: the termination flag is
observed from checkpoint 1 on.  Within the current batch no further item is
submitted once the flag is observed (`submitLoop` stops after the first item),
no new batch is claimed (`mainClaimLoop` returns without touching the queue),
already-dispatched items are still aggregated, and the email-scrape job itself
ends `terminated`; but the workflow thread of `run_integrated_workflow`, whose
wait loop breaks while the child task still reports status `running`, then
records the workflow terminal status as `completed`, not `terminated` — the
termination-status half of the claim fails on the code. -/
theorem C2_termination_run_evaluation :
    submitLoop (fun i => decide (1 ≤ i)) ([11, 12, 13] : List Nat) 0 = [11]
    ∧ (process_batch_aggregate ⟨0, 0, 0, 0, 0, 0⟩ [Except.ok (11, "found", 2)]).processed = 1
    ∧ mainClaimLoop (fun i => decide (1 ≤ i)) 10 7 5 1
        [⟨1, some "A", some "http://a.com", "pending", none, [], none, none, none⟩] =
      ([], [⟨1, some "A", some "http://a.com", "pending", none, [], none, none, none⟩])
    ∧ esFinalStatus true = "terminated"
    ∧ chainWaitExitStatus (fun _ => "running") (fun i => decide (1 ≤ i)) 30 0 = "running"
    ∧ workflowFinalStatus "running" = "completed"
    ∧ ("completed" : String) ≠ "terminated" := by
  refine ⟨?_, ?_, ?_, ?_, ?_, ?_, ?_⟩ <;> decide

/-- Claim C5, counterexamples to the claim as stated.  First: a running parent
task `p1` records child job id `g1`, but the child has already `completed`;
`terminate_postcode_task` does not set the child's flag (the cascade is guarded
by the child being `starting`/`running`).  Second: parent `p2` records a
`running` child `g2` but is itself already `completed`; the endpoint returns
early and again the child's flag is not set. -/
theorem C5_counterexample :
    ((psDemo "p1").map PsTask.gmaps_task_id = some (some "g1")
      ∧ (gmDemoDone "g1").isSome = true
      ∧ ((terminate_postcode_task psDemo gmDemoDone "p1").2 "g1").map
          GmTask.should_terminate = some false)
    ∧ ((psDemoDone "p2").map PsTask.gmaps_task_id = some (some "g2")
      ∧ (gmDemoRunning "g2").map GmTask.status = some "running"
      ∧ ((terminate_postcode_task psDemoDone gmDemoRunning "p2").2 "g2").map
          GmTask.should_terminate = some false) := by
  refine ⟨⟨?_, ?_, ?_⟩, ⟨?_, ?_, ?_⟩⟩ <;> decide

/-- Claim C5 as amended: the cascade fires when the parent is not already in a
terminal state and the recorded child exists in the registry in an active
state (`starting` or `running`) — then terminating the parent also sets the
child's `should_terminate` flag in the same call; and for a workflow that is
not already terminal, every stage recorded as `running` with a truthy task id
present in the matching registry gets its termination flag set. -/
theorem C5_terminate_cascade
    (ps : String → Option PsTask) (gm : String → Option GmTask) (tid : String)
    (t : PsTask) (g : String) (gt : GmTask)
    (wfs : String → Option Workflow) (es : String → Option EsTask) (wid : String)
    (w : Workflow) (etid : String) (et : EsTask)
    (hpt : ps tid = some t)
    (hactive : ¬(t.status = "completed" ∨ t.status = "failed" ∨ t.status = "terminated"))
    (hchild : t.gmaps_task_id = some g)
    (hgt : gm g = some gt)
    (hgactive : gt.status = "starting" ∨ gt.status = "running")
    (hw : wfs wid = some w)
    (hwactive : ¬(w.status = "completed" ∨ w.status = "failed" ∨ w.status = "terminated"))
    (hstage : w.emailStage.status = "running")
    (hetid : w.emailStage.task_id = some etid)
    (hetne : etid ≠ "")
    (het : es etid = some et) :
    (((terminate_postcode_task ps gm tid).2 g).map GmTask.should_terminate = some true
      ∧ ((terminate_postcode_task ps gm tid).1 tid).map PsTask.should_terminate = some true)
    ∧ (((terminate_integrated_workflow wfs ps gm es wid).2.2.2 etid).map
          EsTask.should_terminate = some true
      ∧ ((terminate_integrated_workflow wfs ps gm es wid).1 wid).map
          Workflow.should_terminate = some true) := by
  have hterm : (t.status == "completed" || t.status == "failed" ||
      t.status == "terminated") = false := by
    push_neg at hactive
    simp [hactive.1, hactive.2.1, hactive.2.2]
  have hwterm : (w.status == "completed" || w.status == "failed" ||
      w.status == "terminated") = false := by
    push_neg at hwactive
    simp [hwactive.1, hwactive.2.1, hwactive.2.2]
  have hgact : (gt.status == "starting" || gt.status == "running") = true := by
    rcases hgactive with h | h <;> simp [h]
  constructor
  · simp only [terminate_postcode_task, hpt, hterm, Bool.false_eq_true, if_neg,
      Bool.or_self, hchild, hgt, hgact, if_pos]
    constructor
    · simp [updMap]
    · simp [updMap]
  · have hestage : (w.emailStage.status == "running" && truthyId w.emailStage.task_id) =
        true := by
      simp [hstage, hetid, truthyId, hetne]
    constructor
    · simp [terminate_integrated_workflow, hw, hwterm, hetid, het, hstage, truthyId,
        hetne, updMap]
    · simp [terminate_integrated_workflow, hw, hwterm, updMap]

/-- Witness for C5 (amended): a running parent with a running child, and a
running workflow whose email stage has a live task. -/
theorem C5_witness :
    (psW "p1" = some ⟨"running", false, false, some "g1"⟩
      ∧ ¬(("running" : String) = "completed" ∨ ("running" : String) = "failed" ∨
          ("running" : String) = "terminated")
      ∧ gmW "g1" = some ⟨"running", false⟩
      ∧ wfsW "w1" = some ⟨"running", false, ⟨"completed", some "p0"⟩,
          ⟨"completed", some "g0"⟩, ⟨"running", some "e1"⟩⟩
      ∧ esW "e1" = some ⟨"running", false⟩
      ∧ ("e1" : String) ≠ "")
    ∧ ((((terminate_postcode_task psW gmW "p1").2 "g1").map GmTask.should_terminate =
          some true
        ∧ ((terminate_postcode_task psW gmW "p1").1 "p1").map PsTask.should_terminate =
          some true)
      ∧ (((terminate_integrated_workflow wfsW psW gmW esW "w1").2.2.2 "e1").map
            EsTask.should_terminate = some true
        ∧ ((terminate_integrated_workflow wfsW psW gmW esW "w1").1 "w1").map
            Workflow.should_terminate = some true)) := by
  refine ⟨⟨by decide, by decide, by decide, by decide, by decide, by decide⟩, ?_⟩
  exact C5_terminate_cascade psW gmW "p1" ⟨"running", false, false, some "g1"⟩ "g1"
    ⟨"running", false⟩ wfsW esW "w1"
    ⟨"running", false, ⟨"completed", some "p0"⟩, ⟨"completed", some "g0"⟩,
      ⟨"running", some "e1"⟩⟩ "e1" ⟨"running", false⟩
    (by decide) (by decide) rfl (by decide) (Or.inr rfl) (by decide) (by decide) rfl rfl
    (by decide) (by decide)
